import Mathlib

/-!
# DevAbility Hub — verification of the lesson parser and exercise validator

Shallow embedding of the two algorithmic cores of the repository:

* `src/components/lessons/LessonView.tsx` — the lesson-content mini-parser
  (`parseLessonContentAndCountInteractions` and its comment-stripping
  preprocessing), modelled character-by-character over `List Char`.
* `src/components/exercises/ExerciseView.tsx` — the exercise session state
  machine (`handleDragEnd`, `handleDragStart`, `handleMoveItem`,
  `handleAddAssociation`, `handleRemoveAssociation`) and the per-type answer
  validation inside `handleSubmit`.

React `useState` slots are modelled as record fields; a sequence of plain
(non-functional) `setX(value)` calls inside one event handler is modelled by
the value of the *last* write to each slot, which is React's batching
semantics for value-style updates.
-/

namespace DevAbilityHub

/-! ## JS string primitives over `List Char` -/

/-- Characters matched by the regex class `\s` (ASCII part, which is all the
source content uses) and trimmed by `String.prototype.trim`. -/
def isJsWhitespace (c : Char) : Bool :=
  c = ' ' ∨ c = '\t' ∨ c = '\n' ∨ c = '\r' ∨ c = '\x0b' ∨ c = '\x0c'

/-- A JS string, modelled as its character list. -/
abbrev Str := List Char

/-- `String.prototype.trim`. -/
def jsTrim (s : Str) : Str :=
  ((s.dropWhile isJsWhitespace).reverse.dropWhile isJsWhitespace).reverse

/-- `String.prototype.split` with a single-character separator:
`"".split(c)` is `[""]`, separators at the ends produce empty pieces. -/
def splitOnChar (sep : Char) : Str → List Str
  | [] => [[]]
  | c :: rest =>
    if c = sep then [] :: splitOnChar sep rest
    else
      match splitOnChar sep rest with
      | [] => [[c]]
      | g :: gs => (c :: g) :: gs

/-- Whether `needle` occurs as a contiguous substring of `hay` (used to model
an unanchored dot-all regex lookahead such as `.*?INTERACTIVE_WORD_CHOICE:`). -/
def containsSub (needle : Str) : Str → Bool
  | [] => needle.isEmpty
  | c :: rest => needle.isPrefixOf (c :: rest) || containsSub needle rest

/-! ## Lesson parser: comment stripping (LessonView.tsx lines 135-136)

Source regex: `/<!--(?!.*?INTERACTIVE_WORD_CHOICE:|.*?INTERACTIVE_FILL_IN_BLANK:).*?-->/gs`
applied with `content.replace(regex, '')`.

Because the regex carries the `s` (dot-all) flag and the lookahead is
unanchored, the lookahead `(?!.*?KEYWORD)` succeeds only when neither
directive keyword occurs anywhere from the position right after `<!--` to the
END OF THE WHOLE CONTENT, not merely inside the comment being tested.  The
lazy body `.*?-->` then ends the match at the first `-->`.  The scan is
modelled positionally: an unmatched position contributes its character and
the scan advances by one; a matched comment contributes nothing and the scan
resumes after its `-->`. -/

def kwWordChoice : Str := "INTERACTIVE_WORD_CHOICE:".data

def kwFillBlank : Str := "INTERACTIVE_FILL_IN_BLANK:".data

/-- Suffix immediately after the first occurrence of `-->`, if any
(the lazy `.*?-->` with dot-all: newlines may occur before the close). -/
def findCommentClose : Str → Option Str
  | [] => none
  | c :: rest =>
    if ("-->".data).isPrefixOf (c :: rest) then some ((c :: rest).drop 3)
    else findCommentClose rest

/-- One pass of the global comment-stripping replace.  Fuel-based structural
recursion (fuel = remaining length; every step consumes at least one
character, a matched comment at least seven). -/
def stripCommentsGo : Nat → Str → Str
  | 0, l => l
  | _ + 1, [] => []
  | fuel + 1, c :: rest =>
    if ("<!--".data).isPrefixOf (c :: rest) then
      let body := (c :: rest).drop 4
      if ¬ containsSub kwWordChoice body ∧ ¬ containsSub kwFillBlank body then
        match findCommentClose body with
        | some after => stripCommentsGo fuel after
        | none => c :: stripCommentsGo fuel rest
      else c :: stripCommentsGo fuel rest
    else c :: stripCommentsGo fuel rest

/-- `content.replace(generalCommentsRegex, '')` — LessonView.tsx line 136. -/
def stripGeneralComments (s : Str) : Str := stripCommentsGo s.length s

/-! ## Lesson parser: directive scanning (LessonView.tsx lines 29-34, 138-202)

Source regex (flag `g`, no dot-all):

`<!--\s*(INTERACTIVE_WORD_CHOICE:\s*OPTIONS=\[(.*?)\])\s*-->|<!--\s*(INTERACTIVE_FILL_IN_BLANK:\s*\[(.*?)\])\s*-->`

At a candidate position the word-choice alternative is tried first, then the
fill-in-blank one (JS alternation order); `exec` in a loop yields
non-overlapping matches left to right.  Inside each alternative the lazy
capture `(.*?)` cannot cross a line break (no `s` flag), and `(.*?)\]\s*-->`
ends the capture at the first `]` that is followed by whitespace and `-->`. -/

inductive DirectiveKind
  | wordChoice
  | fillInBlank
deriving DecidableEq, Repr

/-- One `combinedRegex` match: the alternative that matched, the full matched
text (`match[0]`) and the options capture (`match[2]` or `match[4]`). -/
structure DirectiveMatch where
  kind : DirectiveKind
  full : Str
  opts : Str
deriving DecidableEq, Repr

/-- Models `(.*?)\]\s*-->` applied to the text after the opening bracket:
returns the capture and the suffix after `-->`.  The capture may not contain a
line break; a `]` not followed by `\s*-->` is absorbed into the capture and a
later `]` is tried (regex backtracking on the lazy quantifier). -/
def findOptsClose : Str → Option (Str × Str)
  | [] => none
  | c :: rest =>
    if c = ']' ∧ ("-->".data).isPrefixOf (rest.dropWhile isJsWhitespace) then
      some ([], (rest.dropWhile isJsWhitespace).drop 3)
    else if c = '\n' ∨ c = '\r' then none
    else
      match findOptsClose rest with
      | some (opts, after) => some (c :: opts, after)
      | none => none

/-- Models one alternative body after its `<!--`:
`\s*<keyword>\s*<openTag>` followed by `(.*?)\]\s*-->`. -/
def matchDirectiveBody (kw openTag : Str) (l : Str) : Option (Str × Str) :=
  let l1 := l.dropWhile isJsWhitespace
  if kw.isPrefixOf l1 then
    let l2 := (l1.drop kw.length).dropWhile isJsWhitespace
    if openTag.isPrefixOf l2 then
      findOptsClose (l2.drop openTag.length)
    else none
  else none

/-- Attempts `combinedRegex` at the start of `l`: word-choice alternative
first, then fill-in-blank.  Returns the match and the remaining suffix. -/
def tryMatchAt (l : Str) : Option (DirectiveMatch × Str) :=
  if ("<!--".data).isPrefixOf l then
    let body := l.drop 4
    match matchDirectiveBody kwWordChoice ("OPTIONS=[".data) body with
    | some (opts, rest) =>
      some (⟨.wordChoice, l.take (l.length - rest.length), opts⟩, rest)
    | none =>
      match matchDirectiveBody kwFillBlank ("[".data) body with
      | some (opts, rest) =>
        some (⟨.fillInBlank, l.take (l.length - rest.length), opts⟩, rest)
      | none => none
  else none

/-- The `while ((match = combinedRegex.exec(...)))` scan: the list of matches
in order, each paired with the literal gap text preceding it, plus the text
after the last match.  Fuel-based (fuel = remaining length; a match consumes
at least its `<!--`). -/
def scanMatchesGo : Nat → Str → List (Str × DirectiveMatch) × Str
  | 0, l => ([], l)
  | _ + 1, [] => ([], [])
  | fuel + 1, c :: rest =>
    match tryMatchAt (c :: rest) with
    | some (m, after) =>
      let (ms, tail) := scanMatchesGo fuel after
      (([], m) :: ms, tail)
    | none =>
      let (ms, tail) := scanMatchesGo fuel rest
      match ms with
      | [] => ([], c :: tail)
      | (gap, m) :: ms' => ((c :: gap, m) :: ms', tail)

def scanMatches (s : Str) : List (Str × DirectiveMatch) × Str :=
  scanMatchesGo s.length s

/-! ## Lesson parser: directive option validation and token emission
(LessonView.tsx lines 141-207) -/

/-- Parser output: either a literal text run, an interactive widget
descriptor, or a parse-error placeholder.  In the source, placeholders are
pushed as plain strings; they are tagged here so claims can count them. -/
inductive ContentToken
  | text (s : Str)
  | wordChoice (interactionId : Str) (options : List Str) (correctAnswer : Str)
  | fillInBlank (interactionId : Str) (options : List Str) (correctAnswer : Str)
  | parseError (s : Str)
deriving DecidableEq, Repr

/-- `` `lesson-${lesson.id}-interaction-${interactionCounter}` `` — line 142. -/
def mkInteractionId (lessonId : Str) (ordinal : Nat) : Str :=
  "lesson-".data ++ lessonId ++ "-interaction-".data ++ (Nat.repr ordinal).data

/-- The `rawOptions.map(...)` body for one word-choice raw option — lines 154-160:
trim, and strip a leading `*` (re-trimming what follows it). -/
def wcMapped (raw : Str) : Str :=
  let t := jsTrim raw
  if t.head? = some '*' then jsTrim (t.drop 1) else t

/-- The mutable `correctAnswer` accumulated by the same `map` pass: every
`*`-marked option overwrites it (so the last `*` wins), starting from `""`. -/
def wcCorrectAux (acc : Str) : List Str → Str
  | [] => acc
  | raw :: raws =>
    let t := jsTrim raw
    wcCorrectAux (if t.head? = some '*' then jsTrim (t.drop 1) else acc) raws

def wcCorrect (raws : List Str) : Str := wcCorrectAux [] raws

/-- `parsedOptions` — the mapped options with empty entries discarded (line 161). -/
def wcParsedOptions (raws : List Str) : List Str :=
  (raws.map wcMapped).filter (fun o => ¬ o.isEmpty)

/-- Fill-in-blank options: split on `|`, trim, discard empties (line 182). -/
def fbOptions (optsString : Str) : List Str :=
  ((splitOnChar '|' optsString).map jsTrim).filter (fun o => ¬ o.isEmpty)

/-- Processing of one `combinedRegex` match — loop body lines 149-200.

The source dispatches on `if (match[2]) ... else if (match[4]) ...`.  When an
alternative matches with an EMPTY options capture, its group is the empty
string, which is falsy, so NEITHER branch runs and no element is pushed for
the match (`none` here); the inner `else` branches at lines 176-178 and
197-199 (`... PARSE ERROR (no options string) ...`) re-test the same truthy
string and are unreachable. -/
def processDirective (shuffle : List Str → List Str) (lessonId : Str)
    (counter : Nat) (m : DirectiveMatch) : Option ContentToken :=
  let interactionId := mkInteractionId lessonId counter
  match m.kind with
  | .wordChoice =>
    if m.opts.isEmpty then none
    else
      let rawOptions := splitOnChar ';' m.opts
      let correctAnswer := wcCorrect rawOptions
      let parsedOptions := wcParsedOptions rawOptions
      if ¬ parsedOptions.isEmpty ∧ ¬ correctAnswer.isEmpty then
        some (.wordChoice interactionId (shuffle parsedOptions) correctAnswer)
      else
        some (.parseError ("<!-- WC PARSE ERROR: ".data ++ m.full ++ " -->".data))
  | .fillInBlank =>
    if m.opts.isEmpty then none
    else
      let allOptions := fbOptions m.opts
      if ¬ allOptions.isEmpty then
        some (.fillInBlank interactionId allOptions allOptions.headI)
      else
        some (.parseError ("<!-- FB PARSE ERROR: ".data ++ m.full ++ " -->".data))

/-- Token emission for the scanned match list: non-empty gap texts become text
tokens (line 145-147), every match bumps the interaction counter whether or
not it emits anything (line 143), and the non-empty trailing text is appended
(lines 204-206). -/
def buildTokens (shuffle : List Str → List Str) (lessonId : Str) :
    Nat → List (Str × DirectiveMatch) → Str → List ContentToken
  | _, [], tail => if tail.isEmpty then [] else [.text tail]
  | counter, (gap, m) :: ms, tail =>
    (if gap.isEmpty then [] else [ContentToken.text gap]) ++
      (processDirective shuffle lessonId counter m).toList ++
        buildTokens shuffle lessonId (counter + 1) ms tail

/-- `parseLessonContentAndCountInteractions` — LessonView.tsx lines 130-207.
`shuffle` stands for the external `shuffleArray` from `@/lib/utils`. -/
def parseLessonContent (shuffle : List Str → List Str) (lessonId content : Str) :
    List ContentToken :=
  let stripped := stripGeneralComments content
  let scanned := scanMatches stripped
  buildTokens shuffle lessonId 0 scanned.1 scanned.2

def ContentToken.isWidget : ContentToken → Bool
  | .wordChoice _ _ _ => true
  | .fillInBlank _ _ _ => true
  | _ => false

def ContentToken.isParseErrorTok : ContentToken → Bool
  | .parseError _ => true
  | _ => false

def ContentToken.widgetId? : ContentToken → Option Str
  | .wordChoice interactionId _ _ => some interactionId
  | .fillInBlank interactionId _ _ => some interactionId
  | _ => none

/-- The `totalInteractiveElements` effect — LessonView.tsx lines 218-226:
count the emitted widget elements (error placeholders are plain strings in
the source and are not counted). -/
def totalInteractiveElements (tokens : List ContentToken) : Nat :=
  (tokens.filter ContentToken.isWidget).length

/-- Whether a scanned directive passes option validation, i.e. whether the
loop body emits a widget (rather than a placeholder or nothing) for it. -/
def directiveWellFormed (m : DirectiveMatch) : Bool :=
  match m.kind with
  | .wordChoice =>
    ¬ m.opts.isEmpty ∧
      (let raws := splitOnChar ';' m.opts
       ¬ (wcParsedOptions raws).isEmpty ∧ ¬ (wcCorrect raws).isEmpty)
  | .fillInBlank => ¬ m.opts.isEmpty ∧ ¬ (fbOptions m.opts).isEmpty

/-- Whether the loop body emits anything at all for a match: false exactly for
an empty options capture (the falsy-dispatch gap described at
`processDirective`). -/
def directiveEmits (m : DirectiveMatch) : Bool := ¬ m.opts.isEmpty

/-! ## Lesson mount: persisted interaction ids (LessonView.tsx lines 242-259) -/

/-- Result shape of `JSON.parse` as far as the mount code inspects it:
an array (of interaction-id strings) or any other JSON value. -/
inductive JsValue
  | array (elems : List Str)
  | nonArray
deriving DecidableEq

/-- The mount-time read of the persisted interaction-id list.  `jsonParse`
stands for the `JSON.parse` builtin; `.error` is a thrown exception, caught by
the `try`/`catch` at lines 250-257.  The completed set starts empty (line 243)
and is only replaced when parsing succeeds with an array (lines 252-254);
`new Set(...)` is modelled by `dedup`.  The function is total: no failure
escapes to the caller. -/
def loadCompletedInteractions (stored : Option Str)
    (jsonParse : Str → Except Str JsValue) : List Str :=
  match stored with
  | none => []
  | some s =>
    if s.isEmpty then []
    else
      match jsonParse s with
      | .error _ => []
      | .ok (.array xs) => xs.dedup
      | .ok .nonArray => []

/-! ## Exercise data model (ExerciseView.tsx) -/

/-- `ExerciseOption`: `{id, text}`. -/
structure ExerciseOption where
  id : String
  text : String
deriving DecidableEq, Repr

/-- `FormedAssociation`: `{itemAId, itemBId, itemAText, itemBText}`. -/
structure FormedAssociation where
  itemAId : String
  itemBId : String
  itemAText : String
  itemBText : String
deriving DecidableEq, Repr

/-- The `userAnswer` state slot: `string | string[] | Record<string,string>
| undefined`. -/
inductive ExAnswer
  | undef
  | str (s : String)
  | arr (l : List String)
  | map (m : List (String × String))
deriving DecidableEq, Repr

/-- JS-object update `obj[k] = v` on an association list: an existing key
keeps its position and gets the new value, a new key is appended. -/
def setKey {β : Type} (k : String) (v : β) : List (String × β) → List (String × β)
  | [] => [(k, v)]
  | (k', v') :: rest => if k' = k then (k, v) :: rest else (k', v') :: setKey k v rest

/-- JS `delete obj[k]`. -/
def eraseKey {β : Type} (k : String) (m : List (String × β)) : List (String × β) :=
  m.filter (fun p => p.1 ≠ k)

/-- Exercise session state: the `useState` slots of `ExerciseView`
(ExerciseView.tsx lines 96-114). -/
structure ExerciseState where
  userAnswer : ExAnswer
  isSubmitted : Bool
  isCorrect : Option Bool
  selectedItemA : Option String
  selectedItemB : Option String
  formedAssociations : List FormedAssociation
  orderedItems : List ExerciseOption
  unassignedItems : List ExerciseOption
  categorizedItemsMap : List (String × List ExerciseOption)
  userCategorizations : List (String × String)
  activeDragId : Option String
  itemFeedback : List (String × Bool)
deriving DecidableEq, Repr

/-- Static per-exercise data the handlers close over. -/
structure ExerciseCfg where
  itemsA : List ExerciseOption
  itemsB : List ExerciseOption
  targetCategories : List ExerciseOption
deriving Repr

/-! ## Drag-and-drop move (ExerciseView.tsx lines 225-281) -/

/-- The value left in the mutable `itemToMove` by a filter pass over a bucket:
each matching element overwrites it, so the last match wins. -/
def lastWithId (itemId : String) (items : List ExerciseOption) : Option ExerciseOption :=
  (items.filter (fun i => i.id = itemId)).getLast?

/-- `handleDragStart` — lines 225-228. -/
def handleDragStart (draggedId : String) (s : ExerciseState) : ExerciseState :=
  let s' := { s with activeDragId := some draggedId }
  if s.isSubmitted then
    { s' with isSubmitted := false, isCorrect := none, itemFeedback := [] }
  else s'

/-- `handleDragEnd` — lines 230-281, for a drop event with a non-null `over`
target.  The dragged item is filtered out of the unassigned bucket and out of
every category bucket (collecting it in `itemToMove`); if it was found, it is
inserted into the target container.

State-slot writes are modelled by their last value.  In both the
`'unassigned-items-droppable'` branch (line 263) and the invalid-target branch
(line 272) the source first writes `[...newUnassignedItems, itemToMove]` to
the unassigned slot, but line 278 then unconditionally writes
`newUnassignedItems` (which no longer contains the item) to the same slot;
with plain value-style `setState` calls the later write wins, so the re-added
item is dropped.  Line 279 writes the PRE-EVENT `userCategorizations` closure
value into `userAnswer`. -/
def handleDragEnd (targetCategories : List ExerciseOption)
    (draggedId targetId : String) (s : ExerciseState) : ExerciseState :=
  let newUnassigned := s.unassignedItems.filter (fun i => i.id ≠ draggedId)
  let itemToMove := s.categorizedItemsMap.foldl
    (fun acc p =>
      match lastWithId draggedId p.2 with
      | some x => some x
      | none => acc)
    (lastWithId draggedId s.unassignedItems)
  let newCategorized :=
    s.categorizedItemsMap.map (fun p => (p.1, p.2.filter (fun i => i.id ≠ draggedId)))
  match itemToMove with
  | none => { s with activeDragId := none }
  | some item =>
    if targetId = "unassigned-items-droppable" then
      { s with
        activeDragId := none
        unassignedItems := newUnassigned
        categorizedItemsMap := newCategorized
        userCategorizations := eraseKey draggedId s.userCategorizations
        userAnswer := .map s.userCategorizations }
    else if targetCategories.any (fun cat => cat.id = targetId) then
      { s with
        activeDragId := none
        unassignedItems := newUnassigned
        categorizedItemsMap :=
          setKey targetId ((newCategorized.lookup targetId).getD [] ++ [item]) newCategorized
        userCategorizations := setKey draggedId targetId s.userCategorizations
        userAnswer := .map s.userCategorizations }
    else
      { s with
        activeDragId := none
        unassignedItems := newUnassigned
        categorizedItemsMap := newCategorized
        userCategorizations := eraseKey draggedId s.userCategorizations
        userAnswer := .map s.userCategorizations }

/-- Total number of items over the unassigned bucket and all category buckets. -/
def dndTotalItems (s : ExerciseState) : Nat :=
  s.unassignedItems.length + (s.categorizedItemsMap.map (fun p => p.2.length)).sum

/-! ## Association pair formation (ExerciseView.tsx lines 168-205) -/

/-- `handleAddAssociation` — lines 168-200.  Selected ids must be truthy and
exist in their columns; pairing an already-paired item is rejected (toast)
without touching state; a formed pair clears the selections and, if a
submission was showing, the submission/correctness flags. -/
def handleAddAssociation (cfg : ExerciseCfg) (s : ExerciseState) : ExerciseState :=
  match s.selectedItemA, s.selectedItemB with
  | some a, some b =>
    if a = "" ∨ b = "" then s
    else
      match cfg.itemsA.find? (fun i => i.id = a), cfg.itemsB.find? (fun i => i.id = b) with
      | some itemA, some itemB =>
        if s.formedAssociations.any (fun fa => fa.itemAId = a) ∨
            s.formedAssociations.any (fun fa => fa.itemBId = b) then s
        else
          let s' := { s with
            formedAssociations := s.formedAssociations ++ [⟨a, b, itemA.text, itemB.text⟩]
            selectedItemA := none
            selectedItemB := none }
          if s.isSubmitted then { s' with isSubmitted := false, isCorrect := none } else s'
      | _, _ => s
  | _, _ => s

/-- `handleRemoveAssociation` — lines 202-205: drop the pair at the index,
then clear the flags if a submission was showing. -/
def handleRemoveAssociation (indexToRemove : Nat) (s : ExerciseState) : ExerciseState :=
  let s' := { s with formedAssociations := s.formedAssociations.eraseIdx indexToRemove }
  if s.isSubmitted then { s' with isSubmitted := false, isCorrect := none } else s'

/-! ## Ordering reorder (ExerciseView.tsx lines 207-223) -/

/-- The two `splice` pairs of `handleMoveItem`: swap with the previous
neighbour (`up`, only when `index > 0`) or the next one (`down`, only when
`index < length - 1`); otherwise the list is unchanged. -/
def moveOrdered (items : List ExerciseOption) (index : Nat) (up : Bool) :
    List ExerciseOption :=
  match items.get? index with
  | none => items
  | some itemToMove =>
    if up ∧ 0 < index then
      (items.eraseIdx index).insertIdx (index - 1) itemToMove
    else if ¬ up ∧ index + 1 < items.length then
      (items.eraseIdx index).insertIdx (index + 1) itemToMove
    else items

/-- `handleMoveItem` — lines 207-223.  Blocked entirely after a correct
submission (line 208, `isCorrect` truthy means `some true`); otherwise the
reorder is applied, `userAnswer` mirrors the new id sequence, and the flags
are cleared if a submission was showing. -/
def handleMoveItem (index : Nat) (up : Bool) (s : ExerciseState) : ExerciseState :=
  if s.isSubmitted ∧ s.isCorrect = some true then s
  else
    let newItems := moveOrdered s.orderedItems index up
    let s' := { s with
      orderedItems := newItems
      userAnswer := .arr (newItems.map (fun i => i.id)) }
    if s.isSubmitted then { s' with isSubmitted := false, isCorrect := none } else s'

/-! ## Answer re-selection (ExerciseView.tsx lines 445-518) -/

/-- The `onValueChange`/`onChange` handlers of the multiple-choice and
fill-in-the-blank inputs (lines 447-452, 468-473, 490-495): guarded by
`!isSubmitted || (isSubmitted && !isCorrect)`, they store the new answer and
clear the flags if a submission was showing. -/
def handleSelectAnswer (value : String) (s : ExerciseState) : ExerciseState :=
  if s.isSubmitted ∧ s.isCorrect = some true then s
  else
    let s' := { s with userAnswer := .str value }
    if s.isSubmitted then { s' with isSubmitted := false, isCorrect := none } else s'

/-- The coding textarea `onChange` (lines 512-515): unguarded store-and-clear. -/
def handleCodingInput (value : String) (s : ExerciseState) : ExerciseState :=
  let s' := { s with userAnswer := .str value }
  if s.isSubmitted then { s' with isSubmitted := false, isCorrect := none } else s'

/-- The mutating user events of the exercise view.  A drag-and-drop move is
the `dragstart`/`dragend` pair delivered by the drag library. -/
inductive ExEvent
  | addAssociation
  | removeAssociation (index : Nat)
  | moveItem (index : Nat) (up : Bool)
  | dragMove (draggedId targetId : String)
  | selectAnswer (value : String)
  | codingInput (value : String)
deriving DecidableEq, Repr

/-- One step of the exercise session state machine. -/
def exerciseStep (cfg : ExerciseCfg) (e : ExEvent) (s : ExerciseState) : ExerciseState :=
  match e with
  | .addAssociation => handleAddAssociation cfg s
  | .removeAssociation index => handleRemoveAssociation index s
  | .moveItem index up => handleMoveItem index up s
  | .dragMove draggedId targetId =>
    handleDragEnd cfg.targetCategories draggedId targetId (handleDragStart draggedId s)
  | .selectAnswer value => handleSelectAnswer value s
  | .codingInput value => handleCodingInput value s

/-! ## Validation (ExerciseView.tsx `handleSubmit`, lines 290-427) -/

/-- JS truthiness of an optional string (`undefined` and `""` are falsy). -/
def jsTruthyStr : Option String → Bool
  | none => false
  | some s => s ≠ ""

/-- Association validation — lines 335-343: lengths must agree and the sorted
`itemAId-itemBId` pair strings must agree pointwise with the sorted expected
answers (`.every((val, index) => val === corr[index])` over equal lengths). -/
def pairString (fa : FormedAssociation) : String := fa.itemAId ++ "-" ++ fa.itemBId

def sortStrings (l : List String) : List String := l.insertionSort (· ≤ ·)

def validateAssociation (correctAnswers : List String)
    (formed : List FormedAssociation) : Bool :=
  if formed.length ≠ correctAnswers.length then false
  else
    let userFormatted := sortStrings (formed.map pairString)
    let correctFormatted := sortStrings correctAnswers
    (userFormatted.zip correctFormatted).all (fun p => p.1 = p.2)

/-- Drag-and-drop validation — lines 350-372.  If not every option item is
categorized the answer is wrong and the feedback map stays empty; otherwise a
first pass over the user's categorizations records a per-item verdict
(`===` against the expected mapping, `undefined` compares unequal), and a
second pass over the expected mapping marks any item with a falsy user
categorization as incorrect.  Returns `(correct, itemFeedback)`. -/
def validateDragAndDrop (options : List ExerciseOption)
    (correctAnswersMap userCategorizations : List (String × String)) :
    Bool × List (String × Bool) :=
  if userCategorizations.length ≠ options.length then (false, [])
  else
    let afterUserPass := userCategorizations.foldl
      (fun (acc : Bool × List (String × Bool)) p =>
        let isItemCorrect := correctAnswersMap.lookup p.1 = some p.2
        (acc.1 && isItemCorrect, setKey p.1 isItemCorrect acc.2))
      (true, [])
    correctAnswersMap.foldl
      (fun acc p =>
        if ¬ jsTruthyStr (userCategorizations.lookup p.1) then
          (false, setKey p.1 false acc.2)
        else acc)
      afterUserPass

/-! ## Helper lemmas -/

lemma lookup_cons_fst {β : Type} (k : String) (p : String × β) (m : List (String × β)) :
    (p :: m).lookup k = if k = p.1 then some p.2 else m.lookup k := by
  rcases p with ⟨k', v⟩
  by_cases h : k = k'
  · subst h
    simp [List.lookup_cons]
  · simp [List.lookup_cons, beq_false_of_ne h, h]

lemma lookup_setKey_self {β : Type} (k : String) (v : β) (m : List (String × β)) :
    (setKey k v m).lookup k = some v := by
  induction m with
  | nil => simp [setKey, lookup_cons_fst]
  | cons p rest ih =>
    by_cases h : p.1 = k
    · simp [setKey, h, lookup_cons_fst]
    · simpa [setKey, h, lookup_cons_fst, Ne.symm h] using ih

lemma lookup_setKey_ne {β : Type} {k k' : String} (v : β) (m : List (String × β))
    (h : k' ≠ k) : (setKey k v m).lookup k' = m.lookup k' := by
  induction m with
  | nil => simp [setKey, lookup_cons_fst, h]
  | cons p rest ih =>
    by_cases hp : p.1 = k
    · subst hp
      simp [setKey, lookup_cons_fst, h]
    · by_cases hk' : k' = p.1
      · simp [setKey, hp, lookup_cons_fst, hk']
      · simpa [setKey, hp, lookup_cons_fst, hk'] using ih

lemma mem_of_lookup_eq_some {β : Type} {k : String} {v : β} :
    ∀ {m : List (String × β)}, m.lookup k = some v → (k, v) ∈ m := by
  intro m
  induction m with
  | nil => intro h; simp [List.lookup] at h
  | cons p rest ih =>
    intro h
    rw [lookup_cons_fst] at h
    by_cases hp : k = p.1
    · rw [if_pos hp] at h
      cases h
      rw [hp]
      exact List.mem_cons_self _ _
    · rw [if_neg hp] at h
      exact List.mem_cons_of_mem _ (ih h)

lemma lookup_eq_some_of_mem {β : Type} {k : String} {v : β}
    {m : List (String × β)} (h : (k, v) ∈ m) : ∃ w, m.lookup k = some w := by
  induction m with
  | nil => simp at h
  | cons p rest ih =>
    rw [lookup_cons_fst]
    by_cases hp : k = p.1
    · exact ⟨p.2, by rw [if_pos hp]⟩
    · rw [if_neg hp]
      rcases List.mem_cons.mp h with heq | hmem
      · exact absurd (congrArg Prod.fst heq.symm) fun e => hp e.symm
      · exact ih hmem

lemma zip_all_eq_iff :
    ∀ {a b : List String}, a.length = b.length →
      (((a.zip b).all fun p => decide (p.1 = p.2)) = true ↔ a = b) := by
  intro a
  induction a with
  | nil =>
    intro b hb
    cases b with
    | nil => simp
    | cons y ys => simp at hb
  | cons x xs ih =>
    intro b hb
    cases b with
    | nil => simp at hb
    | cons y ys =>
      simp only [List.zip_cons_cons, List.all_cons, Bool.and_eq_true, decide_eq_true_eq,
        List.cons.injEq]
      exact and_congr Iff.rfl (ih (by simpa using hb))

lemma sortStrings_perm (l : List String) : (sortStrings l).Perm l :=
  List.perm_insertionSort _ l

lemma sortStrings_sorted (l : List String) : List.Sorted (· ≤ ·) (sortStrings l) :=
  List.sorted_insertionSort _ l

lemma sortStrings_eq_of_perm {l₁ l₂ : List String} (h : l₁.Perm l₂) :
    sortStrings l₁ = sortStrings l₂ :=
  List.eq_of_perm_of_sorted
    ((sortStrings_perm l₁).trans (h.trans (sortStrings_perm l₂).symm))
    (sortStrings_sorted l₁) (sortStrings_sorted l₂)

lemma sortStrings_length (l : List String) : (sortStrings l).length = l.length :=
  (sortStrings_perm l).length_eq

/-! ## Claim theorems -/

/-- Claim C1: the drag-and-drop move operation is claimed to conserve the
total item count over all buckets and to keep every item in exactly one
bucket.  The code violates this: dropping an item back onto the unassigned
area removes it from its category bucket but the re-insertion into the
unassigned list (ExerciseView.tsx line 263) is overwritten by the
unconditional write of the filtered list at line 278, so the item vanishes
from every bucket.  Evaluated here on a one-item state with item `i1` sitting
in category `c1`. -/
theorem dragEnd_drop_to_unassigned_loses_item :
    dndTotalItems
      { userAnswer := .undef, isSubmitted := false, isCorrect := none,
        selectedItemA := none, selectedItemB := none, formedAssociations := [],
        orderedItems := [], unassignedItems := [],
        categorizedItemsMap := [("c1", [⟨"i1", "Item 1"⟩]), ("c2", [])],
        userCategorizations := [("i1", "c1")], activeDragId := some "i1",
        itemFeedback := [] } = 1 ∧
    handleDragEnd [⟨"c1", "Category 1"⟩, ⟨"c2", "Category 2"⟩] "i1"
      "unassigned-items-droppable"
      { userAnswer := .undef, isSubmitted := false, isCorrect := none,
        selectedItemA := none, selectedItemB := none, formedAssociations := [],
        orderedItems := [], unassignedItems := [],
        categorizedItemsMap := [("c1", [⟨"i1", "Item 1"⟩]), ("c2", [])],
        userCategorizations := [("i1", "c1")], activeDragId := some "i1",
        itemFeedback := [] } =
      { userAnswer := .map [("i1", "c1")], isSubmitted := false, isCorrect := none,
        selectedItemA := none, selectedItemB := none, formedAssociations := [],
        orderedItems := [], unassignedItems := [],
        categorizedItemsMap := [("c1", []), ("c2", [])],
        userCategorizations := [], activeDragId := none,
        itemFeedback := [] } ∧
    dndTotalItems
      { userAnswer := .map [("i1", "c1")], isSubmitted := false, isCorrect := none,
        selectedItemA := none, selectedItemB := none, formedAssociations := [],
        orderedItems := [], unassignedItems := [],
        categorizedItemsMap := [("c1", []), ("c2", [])],
        userCategorizations := [], activeDragId := none,
        itemFeedback := [] } = 0 := by
  exact ⟨rfl, by decide, rfl⟩

/-- Claim C2: every non-directive HTML comment is claimed to be stripped
regardless of its position.  The code violates this: the lookahead of the
dot-all stripping regex scans to the end of the whole content, so a
non-directive comment placed before a later directive is kept verbatim, while
the same comment with no directive after it is stripped. -/
theorem nondirective_comment_before_directive_survives :
    stripGeneralComments ("<!-- note -->x<!-- INTERACTIVE_FILL_IN_BLANK: [a] -->".data)
      = "<!-- note -->x<!-- INTERACTIVE_FILL_IN_BLANK: [a] -->".data ∧
    parseLessonContent (fun l => l) ("L1".data)
        ("<!-- note -->x<!-- INTERACTIVE_FILL_IN_BLANK: [a] -->".data)
      = [ContentToken.text ("<!-- note -->x".data),
         ContentToken.fillInBlank (mkInteractionId ("L1".data) 0) ["a".data] ("a".data)] ∧
    stripGeneralComments ("<!-- note -->x".data) = "x".data := by
  exact ⟨by decide, by decide, by decide⟩

/-- Claim C3: every malformed directive is claimed to emit a parse-error
placeholder token.  The code violates this for a directive whose options
capture is the empty string (`OPTIONS=[]`): the capture group is falsy, the
`if (match[2]) ... else if (match[4]) ...` dispatch skips both branches, and
no token at all is emitted — evaluated here on a content with exactly one
malformed directive, zero placeholder tokens and zero widgets. -/
theorem empty_capture_malformed_directive_emits_no_placeholder :
    ((((scanMatches (stripGeneralComments
        ("x<!-- INTERACTIVE_WORD_CHOICE: OPTIONS=[] -->".data))).1.map Prod.snd).filter
      (fun m => ¬ directiveWellFormed m)).length = 1) ∧
    parseLessonContent (fun l => l) ("L1".data)
        ("x<!-- INTERACTIVE_WORD_CHOICE: OPTIONS=[] -->".data)
      = [ContentToken.text "x".data] ∧
    ((parseLessonContent (fun l => l) ("L1".data)
        ("x<!-- INTERACTIVE_WORD_CHOICE: OPTIONS=[] -->".data)).filter
      ContentToken.isParseErrorTok).length = 0 := by
  exact ⟨by decide, by decide, by decide⟩

/-- Claim C6: association validation is correct exactly when the pair count
matches and the sorted `itemAId-itemBId` strings equal the sorted expected
strings, and is invariant under the formation order of the pairs. -/
theorem association_validation_sorted_set_equality (correctAnswers : List String)
    (f₁ f₂ : List FormedAssociation) (hperm : f₁.Perm f₂) :
    (validateAssociation correctAnswers f₁ = true ↔
      f₁.length = correctAnswers.length ∧
        sortStrings (f₁.map pairString) = sortStrings correctAnswers) ∧
    validateAssociation correctAnswers f₁ = validateAssociation correctAnswers f₂ := by
  constructor
  · unfold validateAssociation
    by_cases hlen : f₁.length = correctAnswers.length
    · rw [if_neg (by simpa using hlen)]
      rw [zip_all_eq_iff (by
        rw [sortStrings_length, sortStrings_length, List.length_map, hlen])]
      simp [hlen]
    · rw [if_pos (by simpa using hlen)]
      simp [hlen]
  · unfold validateAssociation
    rw [sortStrings_eq_of_perm (hperm.map pairString), hperm.length_eq]

/-- Witness for C6 at the spec's own example: the same two pairs formed in
the reversed order validate identically. -/
theorem association_validation_sorted_set_equality_witness :
    validateAssociation ["a1-b1", "a2-b2"]
        [⟨"a2", "b2", "A2", "B2"⟩, ⟨"a1", "b1", "A1", "B1"⟩] =
      validateAssociation ["a1-b1", "a2-b2"]
        [⟨"a1", "b1", "A1", "B1"⟩, ⟨"a2", "b2", "A2", "B2"⟩] :=
  (association_validation_sorted_set_equality ["a1-b1", "a2-b2"] _ _ (by decide)).2

/-- Claim C7: a fill-in-blank directive with a non-empty surviving option
list is claimed to always yield a widget whose correct answer is the first
surviving option, and a zero-survivor directive to always yield a parse-error
placeholder.  The placeholder half fails: for the directive `[]` the empty
options capture is falsy and the dispatch emits nothing at all — here the
whole parse of such a lesson is the empty token list — while the widget half
does hold, shown at the spec's `[B|A|C]` example. -/
theorem fillInBlank_empty_capture_emits_no_placeholder :
    parseLessonContent (fun l => l) ("L1".data)
        ("<!-- INTERACTIVE_FILL_IN_BLANK: [] -->".data) = [] ∧
    processDirective (fun l => l) ("L1".data) 0
        ⟨.fillInBlank, ("<!-- INTERACTIVE_FILL_IN_BLANK: [B|A|C] -->".data), ("B|A|C".data)⟩
      = some (.fillInBlank (mkInteractionId ("L1".data) 0)
          ["B".data, "A".data, "C".data] ("B".data)) := by
  exact ⟨by decide, by decide⟩

/-- Claim C9: a persisted interaction-id list that fails to `JSON.parse`, or
parses to a non-array, is caught locally and yields the empty completed set;
the load is a total function, so no error reaches the caller. -/
theorem storage_parse_failure_yields_empty_set
    (jsonParse : Str → Except Str JsValue) (s : Str) :
    (∀ err, jsonParse s = .error err →
      loadCompletedInteractions (some s) jsonParse = []) ∧
    (jsonParse s = .ok .nonArray →
      loadCompletedInteractions (some s) jsonParse = []) ∧
    loadCompletedInteractions none jsonParse = [] := by
  refine ⟨fun err herr => ?_, fun hna => ?_, rfl⟩
  · by_cases hs : s.isEmpty
    · simp [loadCompletedInteractions, hs]
    · simp [loadCompletedInteractions, hs, herr]
  · by_cases hs : s.isEmpty
    · simp [loadCompletedInteractions, hs]
    · simp [loadCompletedInteractions, hs, hna]

/-- Witness for C9: a concrete corrupt persisted value. -/
theorem storage_parse_failure_yields_empty_set_witness :
    loadCompletedInteractions (some "[".data)
      (fun _ => Except.error ("Unexpected end of JSON input".data)) = [] :=
  (storage_parse_failure_yields_empty_set
    (fun _ => Except.error ("Unexpected end of JSON input".data)) ("[".data)).1
    ("Unexpected end of JSON input".data) rfl

lemma lastWithId_eq_none {draggedId : String} {items : List ExerciseOption}
    (h : ∀ i ∈ items, i.id ≠ draggedId) : lastWithId draggedId items = none := by
  unfold lastWithId
  rw [List.filter_eq_nil_iff.mpr (by simpa using h)]
  rfl

lemma foldl_lastWithId_none {draggedId : String}
    {l : List (String × List ExerciseOption)}
    (h : ∀ p ∈ l, ∀ i ∈ p.2, i.id ≠ draggedId) :
    l.foldl (fun acc p =>
      match lastWithId draggedId p.2 with
      | some x => some x
      | none => acc) none = none := by
  induction l with
  | nil => rfl
  | cons p rest ih =>
    rw [List.foldl_cons, lastWithId_eq_none (h p (List.mem_cons_self _ _))]
    exact ih fun q hq => h q (List.mem_cons_of_mem _ hq)

/-- Claim C10: `handleDragEnd` with a dragged item id found in no bucket is a
no-op on the drag-and-drop answer state: the unassigned list, the
category-to-items map and the item-to-category mapping are unchanged
(`itemToMove` stays `undefined` and the handler returns before any bucket
write). -/
theorem dragEnd_unknown_dragged_id_noop (targetCategories : List ExerciseOption)
    (draggedId targetId : String) (s : ExerciseState)
    (hun : ∀ i ∈ s.unassignedItems, i.id ≠ draggedId)
    (hcat : ∀ p ∈ s.categorizedItemsMap, ∀ i ∈ p.2, i.id ≠ draggedId) :
    (handleDragEnd targetCategories draggedId targetId s).unassignedItems
        = s.unassignedItems ∧
    (handleDragEnd targetCategories draggedId targetId s).categorizedItemsMap
        = s.categorizedItemsMap ∧
    (handleDragEnd targetCategories draggedId targetId s).userCategorizations
        = s.userCategorizations := by
  have hnone : s.categorizedItemsMap.foldl (fun acc p =>
      match lastWithId draggedId p.2 with
      | some x => some x
      | none => acc) (lastWithId draggedId s.unassignedItems) = none := by
    rw [lastWithId_eq_none hun]
    exact foldl_lastWithId_none hcat
  simp only [handleDragEnd, hnone]
  exact ⟨trivial, trivial, trivial⟩

/-- Witness for C10: dragging an id that is in no bucket. -/
theorem dragEnd_unknown_dragged_id_noop_witness :
    (handleDragEnd [⟨"c1", "Category 1"⟩] "ghost" "c1"
      { userAnswer := .undef, isSubmitted := false, isCorrect := none,
        selectedItemA := none, selectedItemB := none, formedAssociations := [],
        orderedItems := [], unassignedItems := [⟨"i1", "Item 1"⟩],
        categorizedItemsMap := [("c1", [⟨"i2", "Item 2"⟩])],
        userCategorizations := [("i2", "c1")], activeDragId := some "ghost",
        itemFeedback := [] }).unassignedItems = [⟨"i1", "Item 1"⟩] :=
  (dragEnd_unknown_dragged_id_noop [⟨"c1", "Category 1"⟩] "ghost" "c1" _
    (by decide) (by decide)).1

lemma wcCorrectAux_cases (raws : List Str) :
    ∀ acc : Str, wcCorrectAux acc raws = acc ∨
      ∃ raw ∈ raws, (jsTrim raw).head? = some '*' ∧
        wcCorrectAux acc raws = jsTrim ((jsTrim raw).drop 1) := by
  induction raws with
  | nil => intro acc; exact Or.inl rfl
  | cons raw rest ih =>
    intro acc
    by_cases hstar : (jsTrim raw).head? = some '*'
    · rcases ih (jsTrim ((jsTrim raw).drop 1)) with heq | ⟨raw', hmem, hstar', heq⟩
      · refine Or.inr ⟨raw, List.mem_cons_self _ _, hstar, ?_⟩
        simp only [wcCorrectAux, if_pos hstar]
        simpa only [wcCorrectAux, if_pos hstar] using heq
      · refine Or.inr ⟨raw', List.mem_cons_of_mem _ hmem, hstar', ?_⟩
        simp only [wcCorrectAux, if_pos hstar]
        exact heq
    · rcases ih acc with heq | ⟨raw', hmem, hstar', heq⟩
      · refine Or.inl ?_
        simp only [wcCorrectAux, if_neg hstar]
        exact heq
      · refine Or.inr ⟨raw', List.mem_cons_of_mem _ hmem, hstar', ?_⟩
        simp only [wcCorrectAux, if_neg hstar]
        exact heq

lemma wcCorrect_mem_parsed {raws : List Str} (h : ¬ (wcCorrect raws).isEmpty) :
    wcCorrect raws ∈ wcParsedOptions raws := by
  rcases wcCorrectAux_cases raws [] with heq | ⟨raw, hmem, hstar, heq⟩
  · exact absurd (by rw [wcCorrect, heq]; rfl) h
  · have hmapped : wcMapped raw = wcCorrect raws := by
      rw [wcMapped, if_pos hstar, wcCorrect, heq]
    refine List.mem_filter.mpr ⟨?_, by simpa using h⟩
    rw [← hmapped]
    exact List.mem_map_of_mem wcMapped hmem

/-- Claim C8: whenever a word-choice directive emits a widget, the captured
correct answer (the last `*`-marked option, `*` stripped and re-trimmed) is a
member of the option list handed to the widget.  `shuffle` models the
external `shuffleArray`, assumed per the spec to be a permutation. -/
theorem wordChoice_correct_answer_among_shuffled_options
    (shuffle : List Str → List Str) (hshuffle : ∀ l, (shuffle l).Perm l)
    (lessonId : Str) (counter : Nat) (m : DirectiveMatch)
    (interactionId : Str) (options : List Str) (correctAnswer : Str)
    (hemit : processDirective shuffle lessonId counter m
      = some (.wordChoice interactionId options correctAnswer)) :
    correctAnswer ∈ options := by
  rcases m with ⟨kind, full, opts⟩
  cases kind with
  | fillInBlank =>
    rw [processDirective] at hemit
    dsimp only at hemit
    split at hemit
    · exact Option.noConfusion hemit
    · split at hemit <;> simp at hemit
  | wordChoice =>
    rw [processDirective] at hemit
    dsimp only at hemit
    split at hemit
    · exact Option.noConfusion hemit
    · split at hemit
      · rename_i hvalid
        injection hemit with h
        injection h with h1 h2 h3
        rw [← h2, ← h3]
        exact (hshuffle _).mem_iff.mpr (wcCorrect_mem_parsed hvalid.2)
      · simp at hemit

/-- Witness for C8: the directive options `a;*b` (identity shuffle) emit the
correct answer `b`, which sits among the widget's options. -/
theorem wordChoice_correct_answer_among_shuffled_options_witness :
    ("b".data : Str) ∈ [("a".data : Str), ("b".data : Str)] :=
  wordChoice_correct_answer_among_shuffled_options
    (fun l => l) (fun l => List.Perm.refl l) ("L1".data) 0
    ⟨.wordChoice, [], "a;*b".data⟩ (mkInteractionId ("L1".data) 0)
    [("a".data : Str), ("b".data : Str)] ("b".data) (by decide)

lemma dnd_pass1_fst (cm : List (String × String)) :
    ∀ (l : List (String × String)) (b : Bool) (fb : List (String × Bool)),
      (l.foldl (fun (acc : Bool × List (String × Bool)) p =>
          (acc.1 && decide (cm.lookup p.1 = some p.2),
           setKey p.1 (decide (cm.lookup p.1 = some p.2)) acc.2)) (b, fb)).1
        = (b && l.all fun p => decide (cm.lookup p.1 = some p.2)) := by
  intro l
  induction l with
  | nil => intro b fb; simp
  | cons p rest ih =>
    intro b fb
    rw [List.foldl_cons, List.all_cons, ih, Bool.and_assoc]

lemma dnd_pass2_fst (uc : List (String × String)) :
    ∀ (l : List (String × String)) (acc : Bool × List (String × Bool)),
      (l.foldl (fun acc p =>
          if ¬ jsTruthyStr (uc.lookup p.1) then (false, setKey p.1 false acc.2)
          else acc) acc).1
        = (acc.1 && l.all fun p => jsTruthyStr (uc.lookup p.1)) := by
  intro l
  induction l with
  | nil => intro acc; simp
  | cons p rest ih =>
    intro acc
    rw [List.foldl_cons, List.all_cons]
    by_cases ht : jsTruthyStr (uc.lookup p.1)
    · rw [if_neg (by simpa using ht), ih, ht, Bool.true_and]
    · rw [if_pos (by simpa using ht), ih]
      simp [Bool.eq_false_iff.mpr ht]

lemma dnd_pass2_feedback (uc : List (String × String)) :
    ∀ (l : List (String × String)) (acc : Bool × List (String × Bool)) (k : String),
      (acc.2.lookup k = some false ∨
        (∃ v, (k, v) ∈ l ∧ jsTruthyStr (uc.lookup k) = false)) →
      ((l.foldl (fun acc p =>
          if ¬ jsTruthyStr (uc.lookup p.1) then (false, setKey p.1 false acc.2)
          else acc) acc).2.lookup k = some false) := by
  intro l
  induction l with
  | nil =>
    intro acc k h
    rcases h with h | ⟨v, hv, _⟩
    · exact h
    · simp at hv
  | cons p rest ih =>
    intro acc k h
    rw [List.foldl_cons]
    by_cases ht : jsTruthyStr (uc.lookup p.1)
    · rw [if_neg (by simpa using ht)]
      apply ih
      rcases h with h | ⟨v, hv, hfalse⟩
      · exact Or.inl h
      · rcases List.mem_cons.mp hv with heq | hmem
        · exfalso
          have : p.1 = k := (congrArg Prod.fst heq).symm
          rw [this] at ht
          rw [hfalse] at ht
          exact Bool.false_ne_true ht
        · exact Or.inr ⟨v, hmem, hfalse⟩
    · rw [if_pos (by simpa using ht)]
      apply ih
      by_cases hk : k = p.1
      · exact Or.inl (by rw [hk]; exact lookup_setKey_self _ false acc.2)
      · rcases h with h | ⟨v, hv, hfalse⟩
        · exact Or.inl (by rw [lookup_setKey_ne false acc.2 hk]; exact h)
        · rcases List.mem_cons.mp hv with heq | hmem
          · exact absurd (congrArg Prod.fst heq) hk
          · exact Or.inr ⟨v, hmem, hfalse⟩

/-- Claim C4: drag-and-drop validation reports correct exactly when every
option item is categorized (user categorization count equals option count)
and every assigned category matches the expected mapping — stated two-sided:
every user categorization agrees with the expected mapping, and at every key
of the expected mapping the user's lookup coincides with the expected one.
Additionally (feedback half, under the count precondition that the submit
guard enforces): any item of the expected mapping on which the user's
categorization is absent is marked incorrect in the feedback map.  The
hypothesis `hcm` says expected category ids are non-empty strings, which is
what makes the JS truthiness test `!userCategorizations[id]` mean absence. -/
theorem dragAndDrop_validation_spec (options : List ExerciseOption)
    (cm uc : List (String × String)) (hcm : ∀ p ∈ cm, p.2 ≠ "") :
    ((validateDragAndDrop options cm uc).1 = true ↔
      (uc.length = options.length ∧
        (∀ p ∈ uc, cm.lookup p.1 = some p.2) ∧
        (∀ p ∈ cm, uc.lookup p.1 = cm.lookup p.1))) ∧
    (uc.length = options.length →
      ∀ p ∈ cm, uc.lookup p.1 = none →
        (validateDragAndDrop options cm uc).2.lookup p.1 = some false) := by
  constructor
  · by_cases hlen : uc.length = options.length
    · simp only [validateDragAndDrop]
      rw [if_neg (by simpa using hlen)]
      rw [dnd_pass2_fst, dnd_pass1_fst]
      simp only [Bool.true_and, Bool.and_eq_true, List.all_eq_true, decide_eq_true_eq]
      constructor
      · rintro ⟨h1, h2⟩
        refine ⟨hlen, h1, fun p hp => ?_⟩
        have ht := h2 p hp
        cases hv : uc.lookup p.1 with
        | none => rw [hv] at ht; simp [jsTruthyStr] at ht
        | some v =>
          rw [h1 _ (mem_of_lookup_eq_some hv)]
      · rintro ⟨_, h2, h3⟩
        refine ⟨h2, fun p hp => ?_⟩
        obtain ⟨w, hw⟩ := lookup_eq_some_of_mem hp
        have hwmem : (p.1, w) ∈ cm := mem_of_lookup_eq_some hw
        rw [h3 p hp, hw]
        simp [jsTruthyStr, hcm _ hwmem]
    · simp only [validateDragAndDrop]
      rw [if_pos (by simpa using hlen)]
      simp [hlen]
  · intro hlen p hp hnone
    simp only [validateDragAndDrop]
    rw [if_neg (by simpa using hlen)]
    apply dnd_pass2_feedback
    exact Or.inr ⟨p.2, hp, by rw [hnone]; rfl⟩

/-- Witness for C4: a fully and correctly categorized two-item exercise
validates as correct. -/
theorem dragAndDrop_validation_spec_witness :
    (validateDragAndDrop [⟨"i1", "Item 1"⟩, ⟨"i2", "Item 2"⟩]
      [("i1", "c1"), ("i2", "c2")] [("i2", "c2"), ("i1", "c1")]).1 = true :=
  (dragAndDrop_validation_spec [⟨"i1", "Item 1"⟩, ⟨"i2", "Item 2"⟩]
    [("i1", "c1"), ("i2", "c2")] [("i2", "c2"), ("i1", "c1")]
    (by decide)).1.mpr (by decide)

lemma handleAddAssociation_flags (cfg : ExerciseCfg) (s : ExerciseState)
    (hsub : s.isSubmitted = true) :
    handleAddAssociation cfg s = s ∨
      ((handleAddAssociation cfg s).isSubmitted = false ∧
       (handleAddAssociation cfg s).isCorrect = none) := by
  unfold handleAddAssociation
  cases hA : s.selectedItemA with
  | none => exact Or.inl rfl
  | some a =>
    cases hB : s.selectedItemB with
    | none => exact Or.inl rfl
    | some b =>
      dsimp only
      by_cases h1 : a = "" ∨ b = ""
      · rw [if_pos h1]
        exact Or.inl rfl
      · rw [if_neg h1]
        cases hfa : cfg.itemsA.find? (fun i => i.id = a) with
        | none => exact Or.inl rfl
        | some itemA =>
          cases hfb : cfg.itemsB.find? (fun i => i.id = b) with
          | none => exact Or.inl rfl
          | some itemB =>
            dsimp only
            split_ifs with h2
            · exact Or.inl rfl
            · exact Or.inr ⟨rfl, rfl⟩

lemma handleRemoveAssociation_flags (index : Nat) (s : ExerciseState)
    (hsub : s.isSubmitted = true) :
    (handleRemoveAssociation index s).isSubmitted = false ∧
    (handleRemoveAssociation index s).isCorrect = none := by
  unfold handleRemoveAssociation
  rw [if_pos hsub]
  exact ⟨rfl, rfl⟩

lemma handleMoveItem_flags (index : Nat) (up : Bool) (s : ExerciseState)
    (hsub : s.isSubmitted = true) :
    handleMoveItem index up s = s ∨
      ((handleMoveItem index up s).isSubmitted = false ∧
       (handleMoveItem index up s).isCorrect = none) := by
  unfold handleMoveItem
  split_ifs with h1
  · exact Or.inl rfl
  · exact Or.inr ⟨rfl, rfl⟩

lemma handleSelectAnswer_flags (value : String) (s : ExerciseState)
    (hsub : s.isSubmitted = true) :
    handleSelectAnswer value s = s ∨
      ((handleSelectAnswer value s).isSubmitted = false ∧
       (handleSelectAnswer value s).isCorrect = none) := by
  unfold handleSelectAnswer
  split_ifs with h1
  · exact Or.inl rfl
  · exact Or.inr ⟨rfl, rfl⟩

lemma handleCodingInput_flags (value : String) (s : ExerciseState)
    (hsub : s.isSubmitted = true) :
    (handleCodingInput value s).isSubmitted = false ∧
    (handleCodingInput value s).isCorrect = none := by
  unfold handleCodingInput
  rw [if_pos hsub]
  exact ⟨rfl, rfl⟩

lemma handleDragStart_flags (draggedId : String) (s : ExerciseState)
    (hsub : s.isSubmitted = true) :
    (handleDragStart draggedId s).isSubmitted = false ∧
    (handleDragStart draggedId s).isCorrect = none ∧
    (handleDragStart draggedId s).itemFeedback = [] := by
  unfold handleDragStart
  rw [if_pos hsub]
  exact ⟨rfl, rfl, rfl⟩

lemma handleDragEnd_preserves_flags (targetCategories : List ExerciseOption)
    (draggedId targetId : String) (s : ExerciseState) :
    (handleDragEnd targetCategories draggedId targetId s).isSubmitted = s.isSubmitted ∧
    (handleDragEnd targetCategories draggedId targetId s).isCorrect = s.isCorrect ∧
    (handleDragEnd targetCategories draggedId targetId s).itemFeedback = s.itemFeedback := by
  simp only [handleDragEnd]
  split
  · exact ⟨rfl, rfl, rfl⟩
  · split_ifs <;> exact ⟨rfl, rfl, rfl⟩

/-- Claim C5: in any submitted state, an event that actually changes the
state clears the submission flag back to `false` and the correctness flag
back to `null`; a drag-and-drop move additionally clears the per-item
feedback map.  (An event that is refused — e.g. a reorder or re-selection
after a correct submission — leaves the state untouched, which is exactly the
`exerciseStep cfg e s ≠ s` escape.) -/
theorem mutation_after_submission_clears_flags (cfg : ExerciseCfg) (e : ExEvent)
    (s : ExerciseState) (hsub : s.isSubmitted = true)
    (hmut : exerciseStep cfg e s ≠ s) :
    (exerciseStep cfg e s).isSubmitted = false ∧
    (exerciseStep cfg e s).isCorrect = none ∧
    (∀ draggedId targetId, e = .dragMove draggedId targetId →
      (exerciseStep cfg e s).itemFeedback = []) := by
  cases e with
  | addAssociation =>
    rcases handleAddAssociation_flags cfg s hsub with heq | ⟨h1, h2⟩
    · exact absurd heq hmut
    · exact ⟨h1, h2, fun _ _ h => nomatch h⟩
  | removeAssociation index =>
    obtain ⟨h1, h2⟩ := handleRemoveAssociation_flags index s hsub
    exact ⟨h1, h2, fun _ _ h => nomatch h⟩
  | moveItem index up =>
    rcases handleMoveItem_flags index up s hsub with heq | ⟨h1, h2⟩
    · exact absurd heq hmut
    · exact ⟨h1, h2, fun _ _ h => nomatch h⟩
  | dragMove draggedId targetId =>
    obtain ⟨hs1, hs2, hs3⟩ := handleDragStart_flags draggedId s hsub
    obtain ⟨hp1, hp2, hp3⟩ := handleDragEnd_preserves_flags cfg.targetCategories
      draggedId targetId (handleDragStart draggedId s)
    refine ⟨?_, ?_, fun _ _ _ => ?_⟩
    · show (handleDragEnd _ _ _ _).isSubmitted = false
      rw [hp1, hs1]
    · show (handleDragEnd _ _ _ _).isCorrect = none
      rw [hp2, hs2]
    · show (handleDragEnd _ _ _ _).itemFeedback = []
      rw [hp3, hs3]
  | selectAnswer value =>
    rcases handleSelectAnswer_flags value s hsub with heq | ⟨h1, h2⟩
    · exact absurd heq hmut
    · exact ⟨h1, h2, fun _ _ h => nomatch h⟩
  | codingInput value =>
    obtain ⟨h1, h2⟩ := handleCodingInput_flags value s hsub
    exact ⟨h1, h2, fun _ _ h => nomatch h⟩

/-- Witness for C5: removing the only formed pair of a submitted (incorrect)
association exercise clears both flags. -/
theorem mutation_after_submission_clears_flags_witness :
    (exerciseStep ⟨[], [], []⟩ (.removeAssociation 0)
      { userAnswer := .undef, isSubmitted := true, isCorrect := some false,
        selectedItemA := none, selectedItemB := none,
        formedAssociations := [⟨"a1", "b2", "A1", "B2"⟩],
        orderedItems := [], unassignedItems := [], categorizedItemsMap := [],
        userCategorizations := [], activeDragId := none,
        itemFeedback := [] }).isSubmitted = false :=
  (mutation_after_submission_clears_flags ⟨[], [], []⟩ (.removeAssociation 0)
    { userAnswer := .undef, isSubmitted := true, isCorrect := some false,
      selectedItemA := none, selectedItemB := none,
      formedAssociations := [⟨"a1", "b2", "A1", "B2"⟩],
      orderedItems := [], unassignedItems := [], categorizedItemsMap := [],
      userCategorizations := [], activeDragId := none,
      itemFeedback := [] } rfl (by decide)).1

end DevAbilityHub
